import Mathlib

/-!
Verification of `src/feishu_client.py` (feishu_duowei_crud).

Shallow embedding: the pydantic models (`FieldsModel`, `RecordModel`) become
Lean structures with explicit smart constructors that run the `display`
validator; the vendor transport is modelled as a script of page responses
(for `query_record`) or a single mutation response (for `update_record` /
`delete_record`).  Exceptions raised by the Python code become `Except`
errors; a `KeyError` from a dict lookup becomes a `none` branch of an
`Option` lookup.  Python `int` becomes `Int`; Python `str` becomes `String`.
-/

namespace Feishu

/-- The class attribute `FieldsModel._display_enum`: internal key → human
label, in source order (`src/feishu_client.py` lines 18-24). -/
def display_enum : List (String × String) :=
  [("configuring", "正在创建"),
   ("configured", "创建完成"),
   ("effective", "生效"),
   ("invalidated", "失效"),
   ("rejected", "拒绝")]

/-- The internal keys of the enum. -/
def displayKeys : List String := display_enum.map Prod.fst

/-- The human labels of the enum (`cls._display_enum.values()`). -/
def displayLabels : List String := display_enum.map Prod.snd

/-- The message of the `ValueError` raised by `check_display`
(`f"Display must be one of {list(cls._display_enum.values())}"`); the
embedding renders the list of labels with `, ` separators inside brackets,
abstracting Python repr quoting. -/
def displayErrorMsg : String :=
  "Display must be one of [" ++ String.intercalate ", " displayLabels ++ "]"

/-- The pydantic validator `FieldsModel.check_display` (lines 27-32): scans
the enum in order; if `v` equals a key or that key's label, return the key;
otherwise raise `ValueError` (surfaced by pydantic as `ValidationError`). -/
def check_display (v : String) : Except String String :=
  match display_enum.find? (fun kv => v == kv.1 || v == kv.2) with
  | some kv => .ok kv.1
  | none => .error displayErrorMsg

/-- The validated shape of `FieldsModel` (lines 9-15). -/
structure FieldsModel where
  app_id : String
  name : String
  display : String
  account : Option String
  update_time : Int
  remark : Option String
deriving DecidableEq, Repr

/-- Constructing a `FieldsModel`: pydantic runs `check_display` on the
supplied `display` and stores its result; a `ValueError` becomes a
`ValidationError` aborting construction. -/
def FieldsModel.mk? (app_id nm display : String) (account : Option String)
    (update_time : Int) (remark : Option String) : Except String FieldsModel :=
  match check_display display with
  | .ok k => .ok ⟨app_id, nm, k, account, update_time, remark⟩
  | .error e => .error e

/-- The default of the `update_time` field, `int(time.time() * 1000)`
(line 14).  In Python this expression is evaluated ONCE, when the class body
executes at import time, so the default is the import-time clock value, not
the construction-time clock value. -/
def classDefaultUpdateTime (importTime : Int) : Int := importTime

/-- Construction `FieldsModel(app_id=…, name=…, display=…)` with
`update_time` not supplied: the stored value is the class-level default.
`constructionTime` is the clock at the moment of the call; the source never
reads it. -/
def FieldsModel.mkDefault (importTime _constructionTime : Int)
    (app_id nm display : String) (account : Option String)
    (remark : Option String) : Except String FieldsModel :=
  FieldsModel.mk? app_id nm display account (classDefaultUpdateTime importTime) remark

/-- Dict-lookup `FieldsModel._display_enum[k]` (key → label); `none` models
a `KeyError`. -/
def labelOf (k : String) : Option String :=
  (display_enum.find? (fun kv => kv.1 == k)).map Prod.snd

/-- The wire form of the fields mapping produced by `FieldsModel.dict`:
same fields, `display` replaced by its label string. -/
structure WireFields where
  app_id : String
  name : String
  display : String
  account : Option String
  update_time : Int
  remark : Option String
deriving DecidableEq, Repr

/-- `FieldsModel.dict` (lines 35-38): serialize all fields unchanged, then
overwrite `display` with `self._display_enum[self.display]`; `none` models
the `KeyError` when `self.display` is not a key. -/
def FieldsModel.dict (f : FieldsModel) : Option WireFields :=
  match labelOf f.display with
  | some lab => some ⟨f.app_id, f.name, lab, f.account, f.update_time, f.remark⟩
  | none => none

/-- A wire record as returned by the transport list call: a fields mapping
plus optional `id` / `record_id`. -/
structure WireRecord where
  fields : WireFields
  id : Option String
  record_id : Option String
deriving DecidableEq, Repr

/-- `RecordModel` (lines 41-44). -/
structure RecordModel where
  fields : FieldsModel
  id : Option String
  record_id : Option String
deriving DecidableEq, Repr

/-- Deserializing `RecordModel(**item)`: pydantic builds the nested
`FieldsModel` from the wire fields, running `check_display` (so a label in
the wire `display` slot is normalized back to its key), and propagates
`id` / `record_id` verbatim. -/
def RecordModel.ofWire (w : WireRecord) : Except String RecordModel :=
  match FieldsModel.mk? w.fields.app_id w.fields.name w.fields.display
      w.fields.account w.fields.update_time w.fields.remark with
  | .ok f => .ok ⟨f, w.id, w.record_id⟩
  | .error e => .error e

/-- A `FieldsModel` is valid when its stored `display` is one of the five
internal keys (the invariant `check_display` establishes). -/
def FieldsModel.Valid (f : FieldsModel) : Prop := f.display ∈ displayKeys

instance (f : FieldsModel) : Decidable f.Valid := by
  unfold FieldsModel.Valid; infer_instance

/-- One response of the transport's paged list call, exposing the SDK
surface `query_record` reads: success flag, error code / message / log id,
and the parsed JSON payload fields `total`, `page_token`, `items`. -/
structure PageResponse where
  success : Bool
  code : Int
  msg : String
  log_id : String
  total : Nat
  page_token : Option String
  items : List WireRecord
deriving DecidableEq, Repr

/-- Errors with which `query_record` can abort. -/
inductive QueryError where
  /-- `KeyError` from `FieldsModel._display_enum[value]` while building the
  filter string. -/
  | keyError (value : String)
  /-- The `Exception` raised on a non-success page response; it holds only
  the diagnostic string of line 80. -/
  | remoteFail (diag : String)
  /-- pydantic `ValidationError` from `RecordModel(**item)` on a malformed
  wire item. -/
  | validationError (msg : String)
deriving DecidableEq, Repr

/-- Outcome of the pagination loop. -/
inductive QueryOutcome where
  | ok (records : List RecordModel)
  | err (e : QueryError)
  /-- The transport script ran out of responses while the loop still wanted
  a page (never happens for a well-formed server). -/
  | outOfPages
deriving DecidableEq, Repr

/-- The message of the exception raised at line 80:
`f"获取飞书文档{key}={value}失败"`.  Note it mentions only `key` and
`value`; the response's code, msg and log id go to the logger, not into the
exception. -/
def queryDiag (key value : String) : String :=
  "获取飞书文档" ++ key ++ "=" ++ value ++ "失败"

/-- The filter string built at line 70:
`f'CurrentValue.[{key}] = "{FieldsModel._display_enum[value] if key == "display" else value}"'`.
`none` models the `KeyError` when `key == "display"` and `value` is not an
enum key. -/
def queryFilter (key value : String) : Option String :=
  if key = "display" then
    (labelOf value).map
      (fun lab => "CurrentValue.[" ++ key ++ "] = \"" ++ lab ++ "\"")
  else
    some ("CurrentValue.[" ++ key ++ "] = \"" ++ value ++ "\"")

/-- `[RecordModel(**item) for item in json_data.get("items", [])]`: builds
the list left to right; the first `ValidationError` aborts the whole call. -/
def parseItems : List WireRecord → Except String (List RecordModel)
  | [] => .ok []
  | w :: ws =>
    match RecordModel.ofWire w with
    | .error e => .error e
    | .ok r =>
      match parseItems ws with
      | .error e => .error e
      | .ok rs => .ok (r :: rs)

/-- The `while True` loop of `query_record` (lines 66-89), run against a
script of page responses consumed in arrival order.  Each loop iteration
issues one transport request; the returned `Nat` counts requests issued so
far (`n` on entry).  Per iteration: raise on non-success; otherwise read
`page_token`, parse `items` into `RecordModel`s when `total > 0`, and stop
when the token is absent. -/
def queryLoop (key value : String) :
    List PageResponse → List RecordModel → Nat → QueryOutcome × Nat
  | [], _, n => (.outOfPages, n)
  | p :: rest, acc, n =>
    if p.success then
      match (if p.total > 0 then parseItems p.items else .ok []) with
      | .error e => (.err (.validationError e), n + 1)
      | .ok newRecs =>
        match p.page_token with
        | none => (.ok (acc ++ newRecs), n + 1)
        | some _ => queryLoop key value rest (acc ++ newRecs) (n + 1)
    else
      (.err (.remoteFail (queryDiag key value)), n + 1)

/-- `FeishuClient.query_record(key, value)` (lines 63-90) against a page
script: builds the filter (a `KeyError` there aborts before any request),
then runs the pagination loop with empty accumulator.  Returns the outcome
and the number of transport requests issued. -/
def query_record (key value : String) (pages : List PageResponse) :
    QueryOutcome × Nat :=
  match queryFilter key value with
  | none => (.err (.keyError value), 0)
  | some _ => queryLoop key value pages [] 0

/-- Splits a list into consecutive chunks of 500 (the fixed
`page_size(500)` of line 71); the fuel argument only bounds recursion depth
and any `fuel ≥ rs.length` gives the same result. -/
def chunksAux : Nat → List WireRecord → List (List WireRecord)
  | _, [] => []
  | 0, rs => [rs]
  | fuel + 1, rs => rs.take 500 :: chunksAux fuel (rs.drop 500)

/-- The pages a conformant server serves for a store of `rs` matching
records: 500-record chunks in order. -/
def chunks (rs : List WireRecord) : List (List WireRecord) :=
  chunksAux rs.length rs

/-- Builds the page-response script for a nonempty chunk list: every page
succeeds, reports the full matching `total`, carries a continuation token
exactly when more pages follow. -/
def pagesOf (total : Nat) : List (List WireRecord) → List PageResponse
  | [] => []
  | c :: rest =>
    { success := true, code := 0, msg := "", log_id := "",
      total := total,
      page_token := if rest.isEmpty then none else some "tok",
      items := c } :: pagesOf total rest

/-- The page the server serves when no record matches: success, `total = 0`,
no items, no continuation token. -/
def emptyPage : PageResponse :=
  { success := true, code := 0, msg := "", log_id := "",
    total := 0, page_token := none, items := [] }

/-- The full server script for a store whose matching records are `rs`. -/
def serverPages (rs : List WireRecord) : List PageResponse :=
  match chunks rs with
  | [] => [emptyPage]
  | cs => pagesOf rs.length cs

/-- One response of a transport batch-mutation call. -/
structure MutationResponse where
  success : Bool
  code : Int
  msg : String
  log_id : String
  data : String
deriving DecidableEq, Repr

/-- The batched update request body built at lines 111-112: for each record,
`.fields(b.fields.dict()).record_id(b.record_id)` — the possibly-`None`
`record_id` is passed through untouched.  `none` models the `KeyError` a
`dict()` call would raise on an invalid stored `display`. -/
def buildChangeRecords : List RecordModel → Option (List (Option String × WireFields))
  | [] => some []
  | r :: rs =>
    match r.fields.dict, buildChangeRecords rs with
    | some wf, some rest => some ((r.record_id, wf) :: rest)
    | _, _ => none

/-- `FeishuClient.update_record` (lines 110-127) against one transport
response: builds the change records (no `record_id` validation of any
kind), issues exactly one batch-update round trip, raises on non-success.
The second component lists the request bodies of the network calls issued. -/
def update_record (records : List RecordModel) (resp : MutationResponse) :
    Except String String × List (List (Option String × WireFields)) :=
  match buildChangeRecords records with
  | none => (.error "KeyError", [])
  | some body =>
    if resp.success then (.ok resp.data, [body])
    else (.error "修改飞书内容失败", [body])

/-- `FeishuClient.delete_record` (lines 129-146) against one transport
response: extracts `b.record_id` from each record (possibly `None`, no
validation), issues exactly one batch-delete round trip, raises on
non-success.  The second component lists the request bodies of the network
calls issued. -/
def delete_record (records : List RecordModel) (resp : MutationResponse) :
    Except String String × List (List (Option String)) :=
  let record_ids := records.map (fun b => b.record_id)
  if resp.success then (.ok resp.data, [record_ids])
  else (.error "删除飞书内容失败", [record_ids])

/-- Sample valid fields used as concrete inputs. -/
def sampleFields : FieldsModel := ⟨"a", "n", "effective", none, 5, none⟩

/-- Sample record whose `record_id` is absent (`None`). -/
def recNoId : RecordModel := ⟨sampleFields, none, none⟩

/-- Sample successful mutation response. -/
def okResp : MutationResponse := ⟨true, 0, "", "", "ok"⟩

/-- Sample failed mutation response. -/
def badResp : MutationResponse := ⟨false, 9999, "err", "log", ""⟩

/-- Sample wire record (label-form `display`, as the server sends it). -/
def sampleWire : WireRecord := ⟨⟨"a", "n", "生效", none, 5, none⟩, some "i", some "r"⟩

/-- Sample successful page carrying one item and a continuation token. -/
def goodPage : PageResponse :=
  { success := true, code := 0, msg := "", log_id := "",
    total := 501, page_token := some "tok", items := [sampleWire] }

/-- Sample failing page response. -/
def badPage : PageResponse :=
  { success := false, code := 42, msg := "boom", log_id := "L1",
    total := 0, page_token := none, items := [] }

/-- A second failing page response, differing from `badPage` in code,
message and log id. -/
def badPage2 : PageResponse :=
  { success := false, code := 99, msg := "other", log_id := "L2",
    total := 0, page_token := none, items := [] }

end Feishu

namespace Feishu

theorem check_display_ok_mem {v k : String} (h : check_display v = .ok k) :
    k ∈ displayKeys := by
  unfold check_display at h
  cases hf : display_enum.find? (fun kv => v == kv.1 || v == kv.2) with
  | none => rw [hf] at h; exact absurd h (by simp)
  | some kv =>
    rw [hf] at h
    injection h with h
    subst h
    exact List.mem_map_of_mem Prod.fst (List.mem_of_find?_eq_some hf)

theorem labelOf_isSome_of_mem {k : String} (h : k ∈ displayKeys) :
    (labelOf k).isSome := by
  unfold labelOf
  obtain ⟨kv, hkv, hfst⟩ := List.mem_map.mp h
  have : (display_enum.find? (fun kv => kv.1 == k)).isSome := by
    rw [List.find?_isSome]
    exact ⟨kv, hkv, by simp [hfst]⟩
  cases ho : display_enum.find? (fun kv => kv.1 == k) with
  | none => rw [ho] at this; exact absurd this (by simp)
  | some kv2 => simp

/-- C1: for every string `v` equal to one of the five enum keys or the
corresponding label, constructing a `FieldsModel` with `display = v`
succeeds and stores the internal key; for every `v` matching neither a
key nor a label, construction fails with the `ValidationError` whose
message lists all valid labels. -/
theorem C1_display_normalization (v : String) :
    (∀ kv ∈ display_enum, (v = kv.1 ∨ v = kv.2) →
      ∀ a nm acc t rem, FieldsModel.mk? a nm v acc t rem =
        .ok ⟨a, nm, kv.1, acc, t, rem⟩) ∧
    ((∀ kv ∈ display_enum, v ≠ kv.1 ∧ v ≠ kv.2) →
      ∀ a nm acc t rem,
        FieldsModel.mk? a nm v acc t rem = .error displayErrorMsg) := by
  constructor
  · intro kv hkv hv a nm acc t rem
    fin_cases hkv <;> rcases hv with rfl | rfl <;> rfl
  · intro h a nm acc t rem
    have hn : display_enum.find? (fun kv => v == kv.1 || v == kv.2) = none := by
      rw [List.find?_eq_none]
      intro kv hkv
      have h1 := (h kv hkv).1
      have h2 := (h kv hkv).2
      simp [h1, h2]
    unfold FieldsModel.mk? check_display
    rw [hn]

/-- Witness for C1: the label `"生效"` is accepted and stored as the key
`"effective"`; the string `"nope"` is rejected with the label-listing
message. -/
theorem C1_witness :
    FieldsModel.mk? "a" "n" "生效" none 5 none =
      .ok ⟨"a", "n", "effective", none, 5, none⟩ ∧
    FieldsModel.mk? "a" "n" "nope" none 5 none = .error displayErrorMsg := by
  constructor
  · exact (C1_display_normalization "生效").1 ("effective", "生效")
      (by decide) (Or.inr rfl) "a" "n" none 5 none
  · exact (C1_display_normalization "nope").2 (by decide) "a" "n" none 5 none

/-- C5: for every valid `FieldsModel` `f`, serializing with `dict` and
deserializing the resulting wire record with `RecordModel(**item)`
reproduces `f` exactly (and propagates `id` / `record_id` verbatim); the
`display` field survives key → label → key. -/
theorem C5_round_trip (f : FieldsModel) (h : f.Valid) (id rid : Option String) :
    ∃ wf, f.dict = some wf ∧
      RecordModel.ofWire ⟨wf, id, rid⟩ = .ok ⟨f, id, rid⟩ := by
  obtain ⟨a, nm, d, acc, t, rem⟩ := f
  have h5 : d = "configuring" ∨ d = "configured" ∨ d = "effective" ∨
      d = "invalidated" ∨ d = "rejected" := by
    simpa [FieldsModel.Valid, displayKeys, display_enum] using h
  rcases h5 with rfl | rfl | rfl | rfl | rfl <;> exact ⟨_, rfl, rfl⟩

/-- Witness for C5 at a concrete valid `FieldsModel`. -/
theorem C5_witness :
    sampleFields.Valid ∧
    ∃ wf, sampleFields.dict = some wf ∧
      RecordModel.ofWire ⟨wf, some "i", some "r"⟩ =
        .ok ⟨sampleFields, some "i", some "r"⟩ :=
  ⟨by decide, C5_round_trip sampleFields (by decide) (some "i") (some "r")⟩

/-- C6: `query_record` builds the filter
`CurrentValue.[<key>] = "<value>"`; when `key = "display"` the value is
first translated key → label through the enum table, and for every other
key the value is substituted literally, unescaped. -/
theorem C6_filter_construction (key value : String) :
    (key = "display" → ∀ lab, labelOf value = some lab →
      queryFilter key value =
        some ("CurrentValue.[" ++ key ++ "] = \"" ++ lab ++ "\"")) ∧
    (key ≠ "display" →
      queryFilter key value =
        some ("CurrentValue.[" ++ key ++ "] = \"" ++ value ++ "\"")) := by
  constructor
  · rintro rfl lab hlab
    simp [queryFilter, hlab]
  · intro h
    simp [queryFilter, h]

/-- Witness for C6: querying `display = effective` sends the label
`"生效"`, and a non-display key passes its value through literally. -/
theorem C6_witness :
    queryFilter "display" "effective" =
      some "CurrentValue.[display] = \"生效\"" ∧
    queryFilter "name" "foo" = some "CurrentValue.[name] = \"foo\"" :=
  ⟨(C6_filter_construction "display" "effective").1 rfl "生效" rfl,
   (C6_filter_construction "name" "foo").2 (by decide)⟩

/-- C7: for every valid `FieldsModel`, `dict` renders `display` as the
human label paired with the stored key in the enum table — never as an
internal key — and serializes every other field unchanged. -/
theorem C7_wire_display_is_label (f : FieldsModel) (h : f.Valid) :
    ∃ wf, f.dict = some wf ∧ (f.display, wf.display) ∈ display_enum ∧
      wf.display ∉ displayKeys ∧
      wf.app_id = f.app_id ∧ wf.name = f.name ∧ wf.account = f.account ∧
      wf.update_time = f.update_time ∧ wf.remark = f.remark := by
  obtain ⟨a, nm, d, acc, t, rem⟩ := f
  have h5 : d = "configuring" ∨ d = "configured" ∨ d = "effective" ∨
      d = "invalidated" ∨ d = "rejected" := by
    simpa [FieldsModel.Valid, displayKeys, display_enum] using h
  rcases h5 with rfl | rfl | rfl | rfl | rfl <;>
    exact ⟨_, rfl, by simp [display_enum],
      by simp [displayKeys, display_enum], rfl, rfl, rfl, rfl, rfl⟩

/-- Witness for C7 at a concrete valid `FieldsModel`. -/
theorem C7_witness :
    sampleFields.Valid ∧
    ∃ wf, sampleFields.dict = some wf ∧
      (sampleFields.display, wf.display) ∈ display_enum ∧
      wf.display ∉ displayKeys ∧
      wf.app_id = sampleFields.app_id ∧ wf.name = sampleFields.name ∧
      wf.account = sampleFields.account ∧
      wf.update_time = sampleFields.update_time ∧
      wf.remark = sampleFields.remark :=
  ⟨by decide, C7_wire_display_is_label sampleFields (by decide)⟩

/-- C8 (code bug): the `update_time` default `int(time.time() * 1000)` is
evaluated once, when the class body runs at import time, so every
`FieldsModel` constructed without an explicit `update_time` stores the
import-time clock, not the construction-time clock: two constructions at
clock values 2000 and 3000 under import time 1000 both store 1000. -/
theorem C8_shared_default_update_time :
    FieldsModel.mkDefault 1000 2000 "a" "n" "effective" none none =
      .ok ⟨"a", "n", "effective", none, 1000, none⟩ ∧
    FieldsModel.mkDefault 1000 3000 "a" "n" "effective" none none =
      .ok ⟨"a", "n", "effective", none, 1000, none⟩ ∧
    (1000 : Int) ≠ 2000 :=
  ⟨rfl, rfl, by decide⟩

/-- C9: `query_record("display", v)` with `v` not an internal enum key —
labels included — hits the `KeyError` of the dict lookup while building the
filter and aborts with zero transport requests issued, for every page
script. -/
theorem C9_display_query_rejects_nonkeys (v : String) (hv : v ∉ displayKeys)
    (pages : List PageResponse) :
    query_record "display" v pages = (.err (.keyError v), 0) := by
  have hl : labelOf v = none := by
    unfold labelOf
    have hn : display_enum.find? (fun kv => kv.1 == v) = none := by
      rw [List.find?_eq_none]
      intro kv hkv hbeq
      have he : kv.1 = v := by simpa using hbeq
      exact hv (he ▸ List.mem_map_of_mem Prod.fst hkv)
    rw [hn]
    rfl
  simp [query_record, queryFilter, hl]

/-- Witness for C9: the valid human label `"生效"` — accepted by
`FieldsModel` construction — is rejected by `query_record` before any
network request. -/
theorem C9_witness :
    "生效" ∉ displayKeys ∧
    query_record "display" "生效" (serverPages [sampleWire]) =
      (.err (.keyError "生效"), 0) :=
  ⟨by decide,
   C9_display_query_rejects_nonkeys "生效" (by decide) (serverPages [sampleWire])⟩

/-- C10: every successfully constructed `FieldsModel` stores one of the
five internal keys in `display`, so the label lookup inside `dict` is
total: serialization of a validated model never raises. -/
theorem C10_valid_serialization_total (a nm v : String) (acc rem : Option String)
    (t : Int) (f : FieldsModel) (h : FieldsModel.mk? a nm v acc t rem = .ok f) :
    f.Valid ∧ (f.dict).isSome := by
  unfold FieldsModel.mk? at h
  cases hc : check_display v with
  | error e => rw [hc] at h; exact absurd h (by simp)
  | ok k =>
    rw [hc] at h
    injection h with h
    subst h
    have hmem : k ∈ displayKeys := check_display_ok_mem hc
    refine ⟨hmem, ?_⟩
    unfold FieldsModel.dict
    have := labelOf_isSome_of_mem hmem
    cases ho : labelOf k with
    | none => rw [ho] at this; exact absurd this (by simp)
    | some lab => simp

/-- Witness for C10 at a concrete construction from the label form. -/
theorem C10_witness :
    FieldsModel.mk? "a" "n" "生效" none 5 none = .ok sampleFields ∧
    sampleFields.Valid ∧ (sampleFields.dict).isSome :=
  ⟨rfl, C10_valid_serialization_total "a" "n" "生效" none none 5 sampleFields rfl⟩

/-- Counterexample to C4: a record with absent (`None`) `record_id` does
not make `update_record` / `delete_record` fail with a `ValidationError`;
each issues its one batched network call, the absent id passed through. -/
theorem C4_counterexample :
    update_record [recNoId] okResp =
      (.ok "ok", [[(none, ⟨"a", "n", "生效", none, 5, none⟩)]]) ∧
    delete_record [recNoId] okResp = (.ok "ok", [[none]]) ∧
    recNoId.record_id = none :=
  ⟨rfl, rfl, rfl⟩

/-- C4 as amended: `update_record` and `delete_record` perform no
`record_id` validation; whenever the request body builds (which never
consults `record_id`), exactly one batched transport call is issued with
the possibly-absent ids passed through verbatim. -/
theorem C4_no_recordid_validation (records : List RecordModel)
    (resp : MutationResponse) (body : List (Option String × WireFields))
    (h : buildChangeRecords records = some body) :
    (update_record records resp).2 = [body] ∧
    (delete_record records resp).2 = [records.map (fun b => b.record_id)] := by
  constructor
  · cases hs : resp.success <;> simp [update_record, h, hs]
  · cases hs : resp.success <;> simp [delete_record, hs]

theorem parseItems_append_ok {a b : List WireRecord} {ps : List RecordModel}
    (h : parseItems (a ++ b) = .ok ps) :
    ∃ pa pb, parseItems a = .ok pa ∧ parseItems b = .ok pb ∧ ps = pa ++ pb := by
  induction a generalizing ps with
  | nil => exact ⟨[], ps, rfl, h, rfl⟩
  | cons w ws ih =>
    simp only [List.cons_append, parseItems, List.append_eq] at h
    cases hw : RecordModel.ofWire w with
    | error e => rw [hw] at h; exact absurd h (by simp)
    | ok r =>
      rw [hw] at h
      cases hr : parseItems (ws ++ b) with
      | error e => rw [hr] at h; exact absurd h (by simp)
      | ok rs =>
        rw [hr] at h
        injection h with h
        obtain ⟨pa, pb, h1, h2, h3⟩ := ih hr
        exact ⟨r :: pa, pb, by simp [parseItems, hw, h1], h2,
          by rw [← h, h3, List.cons_append]⟩

theorem chunksAux_flatten (fuel : Nat) (rs : List WireRecord)
    (h : rs.length ≤ fuel) : (chunksAux fuel rs).flatten = rs := by
  induction fuel generalizing rs with
  | zero =>
    have : rs = [] := List.eq_nil_of_length_eq_zero (Nat.le_zero.mp h)
    subst this; rfl
  | succ f ih =>
    cases rs with
    | nil => rfl
    | cons w ws =>
      have hlen : ((w :: ws).drop 500).length ≤ f := by
        rw [List.length_drop]
        simp only [List.length_cons] at h ⊢
        omega
      simp only [chunksAux, List.flatten_cons, ih _ hlen,
        List.take_append_drop]

theorem chunksAux_length (fuel : Nat) (rs : List WireRecord)
    (h : rs.length ≤ fuel) (hne : rs ≠ []) :
    (chunksAux fuel rs).length = (rs.length + 499) / 500 := by
  induction fuel generalizing rs with
  | zero =>
    cases rs with
    | nil => exact absurd rfl hne
    | cons w ws => simp at h
  | succ f ih =>
    cases rs with
    | nil => exact absurd rfl hne
    | cons w ws =>
      simp only [List.length_cons] at h ⊢
      by_cases hle : ws.length + 1 ≤ 500
      · have hd : (w :: ws).drop 500 = [] :=
          List.drop_eq_nil_of_le (by simp only [List.length_cons]; omega)
        simp only [chunksAux, hd, List.length_cons, List.length_nil]
        omega
      · have hdlen : ((w :: ws).drop 500).length ≤ f := by
          rw [List.length_drop]
          simp only [List.length_cons]
          omega
        have hdne : (w :: ws).drop 500 ≠ [] := by
          intro hnil
          have := List.drop_eq_nil_iff.mp hnil
          simp only [List.length_cons] at this
          omega
        simp only [chunksAux, List.length_cons, ih _ hdlen hdne,
          List.length_drop]
        omega

theorem chunks_flatten (rs : List WireRecord) : (chunks rs).flatten = rs :=
  chunksAux_flatten rs.length rs le_rfl

theorem chunks_length (rs : List WireRecord) (hne : rs ≠ []) :
    (chunks rs).length = (rs.length + 499) / 500 :=
  chunksAux_length rs.length rs le_rfl hne

theorem chunks_ne_nil (rs : List WireRecord) (hne : rs ≠ []) :
    chunks rs ≠ [] := by
  unfold chunks
  cases rs with
  | nil => exact absurd rfl hne
  | cons w ws => simp [chunksAux]

theorem queryLoop_cons_continue (key value : String) (p : PageResponse)
    (rest : List PageResponse) (acc ps : List RecordModel) (n : Nat)
    (hs : p.success = true) (tok : String) (htok : p.page_token = some tok)
    (hps : (if p.total > 0 then parseItems p.items else .ok []) = .ok ps) :
    queryLoop key value (p :: rest) acc n =
      queryLoop key value rest (acc ++ ps) (n + 1) := by
  simp only [queryLoop, hs, if_true, hps, htok]

theorem queryLoop_cons_stop (key value : String) (p : PageResponse)
    (rest : List PageResponse) (acc ps : List RecordModel) (n : Nat)
    (hs : p.success = true) (htok : p.page_token = none)
    (hps : (if p.total > 0 then parseItems p.items else .ok []) = .ok ps) :
    queryLoop key value (p :: rest) acc n = (.ok (acc ++ ps), n + 1) := by
  simp only [queryLoop, hs, if_true, hps, htok]

theorem queryLoop_cons_fail (key value : String) (p : PageResponse)
    (rest : List PageResponse) (acc : List RecordModel) (n : Nat)
    (hs : p.success = false) :
    queryLoop key value (p :: rest) acc n =
      (.err (.remoteFail (queryDiag key value)), n + 1) := by
  simp only [queryLoop, hs, Bool.false_eq_true, if_false]

theorem queryLoop_pagesOf (key value : String) (total : Nat)
    (htotal : 0 < total) :
    ∀ cs : List (List WireRecord), cs ≠ [] →
      ∀ ps acc n, parseItems cs.flatten = .ok ps →
        queryLoop key value (pagesOf total cs) acc n =
          (.ok (acc ++ ps), n + cs.length) := by
  intro cs
  induction cs with
  | nil => intro h; exact absurd rfl h
  | cons c rest ih =>
    intro _ ps acc n hp
    obtain ⟨pc, pr, h1, h2, h3⟩ :=
      parseItems_append_ok (a := c) (b := rest.flatten)
        (by rw [← List.flatten_cons]; exact hp)
    cases rest with
    | nil =>
      have hpr : pr = [] := by
        simp only [List.flatten_nil, parseItems] at h2
        injection h2 with h2
        exact h2.symm
      subst hpr
      rw [show pagesOf total [c] =
        [{ success := true, code := 0, msg := "", log_id := "",
           total := total, page_token := none, items := c }] from rfl]
      rw [queryLoop_cons_stop key value _ [] acc pc n rfl rfl
        (by simp only [gt_iff_lt, htotal, if_true]; exact h1)]
      rw [h3, List.append_nil]
      rfl
    | cons c2 rest2 =>
      rw [show pagesOf total (c :: c2 :: rest2) =
        { success := true, code := 0, msg := "", log_id := "",
          total := total, page_token := some "tok", items := c } ::
          pagesOf total (c2 :: rest2) from rfl]
      rw [queryLoop_cons_continue key value _ _ acc pc n rfl "tok" rfl
        (by simp only [gt_iff_lt, htotal, if_true]; exact h1)]
      rw [ih (by simp) pr (acc ++ pc) (n + 1) h2, h3]
      simp only [List.append_assoc, List.length_cons, Prod.mk.injEq]
      exact ⟨trivial, by omega⟩

theorem queryLoop_fail_after_prefix (key value : String) (bad : PageResponse)
    (hbad : bad.success = false) (rest : List PageResponse) :
    ∀ pre : List PageResponse,
      (∀ p ∈ pre, p.success = true ∧ p.page_token.isSome ∧
        ∃ ps, parseItems p.items = .ok ps) →
      ∀ acc n, queryLoop key value (pre ++ bad :: rest) acc n =
        (.err (.remoteFail (queryDiag key value)), n + pre.length + 1) := by
  intro pre
  induction pre with
  | nil =>
    intro _ acc n
    rw [List.nil_append, queryLoop_cons_fail key value bad rest acc n hbad]
    rfl
  | cons p pre' ih =>
    intro hpre acc n
    obtain ⟨hs, ht, ps, hps⟩ := hpre p (by simp)
    obtain ⟨tok, htok⟩ := Option.isSome_iff_exists.mp ht
    have hrec := ih (fun q hq => hpre q (by simp [hq]))
    have hps' : (if p.total > 0 then parseItems p.items else .ok []) =
        .ok (if p.total > 0 then ps else []) := by
      by_cases h0 : p.total > 0 <;> simp [h0, hps]
    rw [List.cons_append,
      queryLoop_cons_continue key value p _ acc _ n hs tok htok hps',
      hrec]
    simp only [List.length_cons, Prod.mk.injEq]
    exact ⟨trivial, by omega⟩

/-- Counterexample to C2 as stated: with zero matching records the server
answers the one mandatory first request with an empty success page, so
`query_record` issues 1 page request while `ceil(0 / 500) = 0`; the
`while True` loop always issues at least one request. -/
theorem C2_counterexample :
    (query_record "name" "x" (serverPages [])).2 = 1 ∧
    (([] : List WireRecord).length + 499) / 500 = 0 := by decide

/-- C2 as amended: for a store of `n` matching records served as success
pages of 500 in order, `query_record` issues exactly
`max 1 (ceil(n / 500))` page requests — one request even when `n = 0` —
follows the continuation token until absent, and returns the concatenation
of all pages in server-returned order. -/
theorem C2_pagination (key value : String)
    (hf : (queryFilter key value).isSome)
    (rs : List WireRecord) (ps : List RecordModel)
    (hp : parseItems rs = .ok ps) :
    query_record key value (serverPages rs) =
      (.ok ps, max 1 ((rs.length + 499) / 500)) := by
  obtain ⟨flt, hflt⟩ := Option.isSome_iff_exists.mp hf
  unfold query_record
  rw [hflt]
  by_cases hrs : rs = []
  · subst hrs
    have hps : ps = [] := by
      simp only [parseItems] at hp
      injection hp with hp
      exact hp.symm
    subst hps
    rfl
  · cases hc : chunks rs with
    | nil => exact absurd hc (chunks_ne_nil rs hrs)
    | cons c cs =>
      have htotal : 0 < rs.length := List.length_pos.mpr hrs
      have hflat : parseItems (c :: cs).flatten = .ok ps := by
        rw [← hc, chunks_flatten]; exact hp
      have hserver : serverPages rs = pagesOf rs.length (c :: cs) := by
        unfold serverPages
        rw [hc]
      rw [hserver,
        queryLoop_pagesOf key value rs.length htotal (c :: cs) (by simp)
          ps [] 0 hflat]
      have hlen : (c :: cs).length = (rs.length + 499) / 500 := by
        rw [← hc]; exact chunks_length rs hrs
      have hge : 1 ≤ (rs.length + 499) / 500 := by omega
      rw [List.nil_append, hlen]
      simp only [Prod.mk.injEq, Nat.zero_add]
      exact ⟨trivial, by omega⟩

/-- Witness for C2 at a one-record store queried through a non-display
key. -/
theorem C2_witness :
    (queryFilter "name" "x").isSome ∧
    parseItems [sampleWire] =
      .ok [⟨⟨"a", "n", "effective", none, 5, none⟩, some "i", some "r"⟩] ∧
    query_record "name" "x" (serverPages [sampleWire]) =
      (.ok [⟨⟨"a", "n", "effective", none, 5, none⟩, some "i", some "r"⟩],
        max 1 (([sampleWire].length + 499) / 500)) :=
  ⟨by decide, rfl,
   C2_pagination "name" "x" (by decide) [sampleWire] _ rfl⟩

/-- Counterexample to C3 as stated: the raised error does not carry the
transport's error code, message or trace id — two failing responses
differing in all three yield identical call outcomes, and the error holds
only the fixed diagnostic naming the query key and value (code, msg and
log id are written to the logger, not into the exception). -/
theorem C3_counterexample :
    query_record "name" "x" [badPage] = query_record "name" "x" [badPage2] ∧
    badPage.code ≠ badPage2.code ∧ badPage.msg ≠ badPage2.msg ∧
    badPage.log_id ≠ badPage2.log_id ∧
    query_record "name" "x" [badPage] =
      (.err (.remoteFail "获取飞书文档name=x失败"), 1) :=
  ⟨rfl, by decide, by decide, by decide, rfl⟩

/-- C3 as amended: if any page response reports non-success, the whole
call fails with the exception whose message names the query key and value
(the transport's code, message and trace id are only logged, not carried
in the raised error), and no partial results are returned: records
accumulated from the earlier successful pages are discarded. -/
theorem C3_fail_discards_partial (key value : String)
    (hf : (queryFilter key value).isSome)
    (pre : List PageResponse) (bad : PageResponse) (rest : List PageResponse)
    (hpre : ∀ p ∈ pre, p.success = true ∧ p.page_token.isSome ∧
      ∃ ps, parseItems p.items = .ok ps)
    (hbad : bad.success = false) :
    query_record key value (pre ++ bad :: rest) =
      (.err (.remoteFail (queryDiag key value)), pre.length + 1) := by
  obtain ⟨flt, hflt⟩ := Option.isSome_iff_exists.mp hf
  unfold query_record
  rw [hflt, queryLoop_fail_after_prefix key value bad hbad rest pre hpre [] 0]
  simp only [Prod.mk.injEq, Nat.zero_add]

/-- Witness for C3: one successful page of records followed by a failing
page makes the whole call fail with the fixed diagnostic, returning no
records. -/
theorem C3_witness :
    goodPage.success = true ∧ badPage.success = false ∧
    query_record "name" "x" [goodPage, badPage] =
      (.err (.remoteFail (queryDiag "name" "x")), 2) := by
  refine ⟨rfl, rfl, ?_⟩
  exact C3_fail_discards_partial "name" "x" (by decide) [goodPage] badPage []
    (by
      intro p hp
      have hpg : p = goodPage := by simpa using hp
      subst hpg
      exact ⟨rfl, rfl,
        [⟨⟨"a", "n", "effective", none, 5, none⟩, some "i", some "r"⟩], rfl⟩)
    rfl

/-- Witness for C4 at a concrete id-less record and a failing transport
response. -/
theorem C4_witness :
    buildChangeRecords [recNoId] =
      some [(none, ⟨"a", "n", "生效", none, 5, none⟩)] ∧
    (update_record [recNoId] badResp).2 =
      [[(none, ⟨"a", "n", "生效", none, 5, none⟩)]] ∧
    (delete_record [recNoId] badResp).2 = [[none]] :=
  ⟨rfl,
   (C4_no_recordid_validation [recNoId] badResp _ rfl).1,
   (C4_no_recordid_validation [recNoId] badResp _ rfl).2⟩

end Feishu
